import Mathlib

/-!
Verification of the smart-toolbox reader-protocol core (src/index.js).

The JavaScript source is shallowly embedded: Node `Buffer`s become
`List Nat` (one `Nat` per byte), JS `Map`s become insertion-ordered
association lists, and the ambient mutable state of `main()` becomes an
explicit `SysState` record threaded through the handlers.  Machine
arithmetic is `Nat` with explicit masking/`% 2 ^ w` where the source
truncates.
-/

namespace SmartToolbox

/-! ### Protocol constants (src/index.js, `Constants`) -/

def HEADER_BYTE : Nat := 0xFF
def CMD_START_APP : Nat := 0x04
def CMD_GET_RUNNING_STAGE : Nat := 0x0C
def CMD_RFID_INVENTORY : Nat := 0x21
def CMD_MULTI_TAG_INVENTORY : Nat := 0xAA
def STAGE_BOOTLOADER : Nat := 0x11
def STAGE_APP : Nat := 0x12
def STATUS_SUCCESS : Nat := 0x0000
def MSG_CRC_INIT : Nat := 0xFFFF
def MSG_CCITT_CRC_POLY : Nat := 0x1021

/-- `Constants.HEX_START_APP = 'ff00041d0b'` as bytes. -/
def hexStartAppCmd : List Nat := [0xff, 0x00, 0x04, 0x1d, 0x0b]

/-- `Constants.HEX_GET_RUNNING_STAGE = 'ff000c1d03'` as bytes. -/
def hexGetRunningStageCmd : List Nat := [0xff, 0x00, 0x0c, 0x1d, 0x03]

/-- `Constants.HEX_SCAN_START` as bytes. -/
def hexScanStartCmd : List Nat :=
  [0xff, 0x13, 0xaa, 0x4d, 0x6f, 0x64, 0x75, 0x6c, 0x65, 0x74, 0x65, 0x63,
   0x68, 0xaa, 0x48, 0x00, 0x00, 0x00, 0x00, 0x00, 0xf2, 0xbb, 0xe1, 0xcb]

/-- `Constants.HEX_SCAN_STOP` as bytes. -/
def hexScanStopCmd : List Nat :=
  [0xff, 0x0e, 0xaa, 0x4d, 0x6f, 0x64, 0x75, 0x6c, 0x65, 0x74, 0x65, 0x63,
   0x68, 0xaa, 0x49, 0xf3, 0xbb]

/-- The exact app-start acknowledgment frame `parseResponse` compares the
whole incoming buffer against (`'ff1404000000000000a4000300202205232205230000000010377c'`). -/
def startAppAckFrame : List Nat :=
  [0xff, 0x14, 0x04, 0x00, 0x00, 0x00, 0x00, 0x00, 0x00, 0xa4, 0x00, 0x03,
   0x00, 0x20, 0x22, 0x05, 0x23, 0x22, 0x05, 0x23, 0x00, 0x00, 0x00, 0x00,
   0x10, 0x37, 0x7c]

/-! ### CRC-16/CCITT engine (src/index.js, `class CRC`) -/

/-- One iteration of the `for` loop in `CRC.crc8`: `value` is the 16-bit
register, `bit` the current input bit (`(v & dcdBitMask) === dcdBitMask`).
The source computes `xorFlag = this.value & 0x8000` before the shift,
shifts with `(this.value << 1) & 0xFFFF`, ORs in the bit and finally XORs
the polynomial when `xorFlag > 0`. -/
def crcBitStep (poly value : Nat) (bit : Bool) : Nat :=
  let xorFlag := value &&& 0x8000
  let v1 := (value <<< 1) &&& 0xFFFF
  let v2 := v1 ||| (if bit then 1 else 0)
  if xorFlag > 0 then v2 ^^^ poly else v2

/-- `CRC.crc8(v)`: fold the bit step over the 8 bits of `v`, the mask
`dcdBitMask` starting at `0x80` and shifting right each iteration. -/
def crc8 (poly value v : Nat) : Nat :=
  (List.range 8).foldl
    (fun acc i => crcBitStep poly acc ((v &&& (0x80 >>> i)) == (0x80 >>> i)))
    value

/-- `CRC.calculate(data)` with the constructor defaults: reset the register
to `MSG_CRC_INIT` and feed every byte through `crc8`. -/
def CRC_calculate (data : List Nat) : Nat :=
  data.foldl (fun acc b => crc8 MSG_CCITT_CRC_POLY acc b) MSG_CRC_INIT

/-- Reference CRC bit step, written from the spec's words (§4.1): shift
the 16-bit register left by one truncated to 16 bits, OR in the current
bit, and XOR with the polynomial 0x1021 when the pre-shift MSB was set. -/
def crcSpecBitStep (r : Nat) (b : Bool) : Nat :=
  let r1 := ((r * 2) % 65536) ||| (if b then 1 else 0)
  if r.testBit 15 then r1 ^^^ 0x1021 else r1

/-- Reference treatment of one input byte: its 8 bits from
most-significant to least-significant. -/
def crcSpecByte (r v : Nat) : Nat :=
  (List.range 8).foldl (fun acc i => crcSpecBitStep acc (v.testBit (7 - i))) r

/-- Reference CRC-16/CCITT over a byte sequence: start from 0xFFFF and
process each byte in order. -/
def crcReference (data : List Nat) : Nat :=
  data.foldl crcSpecByte 0xFFFF

/-! ### JS `Map` and helper embeddings

A JS `Map` iterates in insertion order; `set` on an existing key updates
the value in place, `set` on a fresh key appends.  We embed maps as
association lists with exactly that discipline. -/

def jsMapGet {α : Type} (l : List (String × α)) (k : String) : Option α :=
  match l with
  | [] => none
  | (k', v) :: t => if k' = k then some v else jsMapGet t k

def jsMapSet {α : Type} (l : List (String × α)) (k : String) (v : α) :
    List (String × α) :=
  match l with
  | [] => [(k, v)]
  | (k', v') :: t => if k' = k then (k, v) :: t else (k', v') :: jsMapSet t k v

/-- `buffer.toString('hex').toUpperCase()`: one uppercase hex digit. -/
def hexDigitU (n : Nat) : Char :=
  if n < 10 then Char.ofNat (48 + n) else Char.ofNat (55 + n)

/-- One byte as two uppercase hex characters. -/
def byteHexU (b : Nat) : String :=
  String.mk [hexDigitU (b / 16 % 16), hexDigitU (b % 16)]

/-- A byte list rendered as an uppercase hexadecimal string, as
`epcData.toString('hex').toUpperCase()` does. -/
def bytesHexU (l : List Nat) : String :=
  String.join (l.map byteHexU)

/-- `crcBuffer.writeUInt16BE(calculatedCrc)`: big-endian 16-bit encoding. -/
def u16be (n : Nat) : List Nat :=
  [n / 256 % 256, n % 256]

/-! ### Global mutable state of `main()` -/

/-- The `mode` string; `interactive` also falls through to auto start-up. -/
inductive Mode where
  | auto
  | inventory
  | interactive
  | readTag
deriving DecidableEq, Repr

/-- One value of `scannedTagsCumulative` / `scannedTagsRefresh`:
`{ count, timestamp }`. -/
structure Entry where
  count : Nat
  timestamp : String
deriving DecidableEq, Repr

/-- One value of `inventoryData`: `{ id, epc, item }`.  `id` is `none`
when `parseInt` produced `NaN`. -/
structure InvEntry where
  id : Option Nat
  epc : String
  item : String
deriving DecidableEq, Repr

/-- One element of the `inventoryUpdates` array built by
`logScannedTags`. -/
structure UpdateRec where
  id : Option Nat
  timestamp : String
  epc : String
  item : String
  count : Nat
deriving DecidableEq, Repr

/-- A WebSocket payload sent to a client: either the single-EPC report of
read-tag mode (`{ epc }`) or a flush batch (`{ updates }`). -/
inductive WsMsg where
  | epcReport (epc : String)
  | updates (recs : List UpdateRec)
deriving DecidableEq, Repr

/-- The mutable state of `main()` that the protocol handlers touch.
`inventoryModeFlag` embeds the variable `inventoryMode`, which the source
computes once at start-up (`mode === MODE_INVENTORY`) and never updates,
even though `mode` itself is reassigned by WebSocket commands.
`wsClients` keeps one `readyState === 1` flag per connected client. -/
structure SysState where
  mode : Mode
  inventoryModeFlag : Bool
  autoModeState : Nat
  isScanning : Bool
  readTagScans : List (String × Nat)
  scannedTagsCumulative : List (String × Entry)
  scannedTagsRefresh : List (String × Entry)
  inventoryData : List (String × InvEntry)
  wsClients : List Bool
deriving DecidableEq, Repr

/-- `wsClients.forEach(client => { if (client.readyState === 1) client.send(m) })`:
the message as delivered to each open client, in client order. -/
def broadcast (clients : List Bool) (m : WsMsg) : List WsMsg :=
  clients.filterMap (fun rs => if rs then some m else none)

/-- The body of the `scannedTagsRefresh.forEach` loop in
`logScannedTags`: resolve one window entry against the inventory,
producing an update record when `inventoryData.get(epc)` is truthy and
nothing otherwise. -/
def resolveUpdate (inv : List (String × InvEntry)) (p : String × Entry) :
    Option UpdateRec :=
  match jsMapGet inv p.1 with
  | some item =>
      some { id := item.id, timestamp := p.2.timestamp, epc := p.1,
             item := item.item, count := p.2.count }
  | none => none

/-- `logScannedTags()`: build one update record per refresh-window entry
that resolves in `inventoryData` (entries that do not resolve are
skipped), clear the refresh window, and broadcast the batch when it is
non-empty.  Returns the new state and the per-client deliveries. -/
def logScannedTags (s : SysState) : SysState × List WsMsg :=
  let inventoryUpdates :=
    s.scannedTagsRefresh.filterMap (resolveUpdate s.inventoryData)
  let s1 := { s with scannedTagsRefresh := [] }
  if inventoryUpdates.length > 0 then
    (s1, broadcast s.wsClients (WsMsg.updates inventoryUpdates))
  else
    (s1, [])

/-- `sendWithCrc(data)`: compute the CRC over `data.slice(1)`, append it
big-endian, write the packet, then run the scan-start / scan-stop side
effects keyed on whether the hex string of `data` starts with
`HEX_SCAN_START` or `HEX_SCAN_STOP`.  (The recurring-flush timer itself is
outside the state model; its arming/cancelling has no further state
effect here.)  Returns (new state, bytes written to the port, WebSocket
deliveries). -/
def sendWithCrc (data : List Nat) (s : SysState) :
    SysState × List Nat × List WsMsg :=
  let packetToSend := data ++ u16be (CRC_calculate (List.drop 1 data))
  if hexScanStartCmd.isPrefixOf data then
    ({ s with isScanning := true, scannedTagsCumulative := [],
              scannedTagsRefresh := [] }, packetToSend, [])
  else if hexScanStopCmd.isPrefixOf data then
    if s.isScanning then
      let r := logScannedTags { s with isScanning := false }
      (r.1, packetToSend, r.2)
    else (s, packetToSend, [])
  else (s, packetToSend, [])

/-- `mostFrequentEpc` scan inside the read-tag branch of `parseResponse`:
fold over the map entries in insertion order, keeping the first entry
whose count strictly exceeds the running maximum (initially `('', 0)`). -/
def mostFrequentEpc (l : List (String × Nat)) : String :=
  (l.foldl (fun acc p => if p.2 > acc.2 then p else acc) ("", 0)).1

/-- `parseResponse(buffer)`: the frame handler.  `now` stands for
`new Date().toISOString()`.  Returns (new state, serial packets written,
WebSocket deliveries). -/
def parseResponse (buffer : List Nat) (now : String) (s : SysState) :
    SysState × List (List Nat) × List WsMsg :=
  if buffer.getD 0 0 ≠ HEADER_BYTE then (s, [], [])
  else
    let dataLength := buffer.getD 1 0
    let commandCode := buffer.getD 2 0
    let statusCode := buffer.getD 3 0 * 256 + buffer.getD 4 0
    let payload := (buffer.drop 5).take dataLength
    if commandCode = CMD_START_APP ∧ buffer = startAppAckFrame then
      if s.mode = Mode.auto ∨ s.mode = Mode.inventory ∨ s.mode = Mode.readTag then
        let r := sendWithCrc hexScanStartCmd { s with autoModeState := 2 }
        (r.1, [r.2.1], r.2.2)
      else (s, [], [])
    else if commandCode = CMD_GET_RUNNING_STAGE then
      let runningStage := payload.getD 0 0
      if runningStage = STAGE_APP then
        if (s.mode = Mode.auto ∨ s.mode = Mode.inventory ∨ s.mode = Mode.readTag) ∧
            s.autoModeState = 1 then
          let r := sendWithCrc hexScanStartCmd { s with autoModeState := 2 }
          (r.1, [r.2.1], r.2.2)
        else (s, [], [])
      else if runningStage = STAGE_BOOTLOADER then
        if (s.mode = Mode.auto ∨ s.mode = Mode.inventory ∨ s.mode = Mode.readTag) ∧
            s.autoModeState = 1 then
          let r := sendWithCrc hexStartAppCmd { s with autoModeState := 0 }
          (r.1, [r.2.1], r.2.2)
        else (s, [], [])
      else (s, [], [])
    else if s.isScanning ∧
        (commandCode = CMD_RFID_INVENTORY ∨ commandCode = CMD_MULTI_TAG_INVENTORY) ∧
        statusCode = STATUS_SUCCESS then
      let epcData := (payload.drop 5).take (payload.length - 2 - 5)
      let epcHex := bytesHexU epcData
      if s.mode = Mode.readTag then
        let currentCount := (jsMapGet s.readTagScans epcHex).getD 0 + 1
        let table := jsMapSet s.readTagScans epcHex currentCount
        ({ s with readTagScans := table }, [],
         broadcast s.wsClients (WsMsg.epcReport (mostFrequentEpc table)))
      else if s.inventoryModeFlag ∧ jsMapGet s.inventoryData epcHex = none then
        (s, [], [])
      else
        let cumulativeEntry : Entry :=
          { count := ((jsMapGet s.scannedTagsCumulative epcHex).getD
              { count := 0, timestamp := "" }).count + 1, timestamp := now }
        let refreshEntry : Entry :=
          { count := ((jsMapGet s.scannedTagsRefresh epcHex).getD
              { count := 0, timestamp := "" }).count + 1, timestamp := now }
        ({ s with
            scannedTagsCumulative :=
              jsMapSet s.scannedTagsCumulative epcHex cumulativeEntry,
            scannedTagsRefresh :=
              jsMapSet s.scannedTagsRefresh epcHex refreshEntry }, [], [])
    else (s, [], [])

/-- `startAutoMode()`: send start-application and set `autoModeState = 1`
(arming the 2000 ms timeout).  Returns (new state, packets written). -/
def startAutoMode (s : SysState) : SysState × List (List Nat) :=
  let r := sendWithCrc hexStartAppCmd s
  ({ r.1 with autoModeState := 1 }, [r.2.1])

/-- The `setTimeout` callback armed by `startAutoMode`: when the state is
still `1`, send query-running-stage; the state variable is not changed. -/
def autoTimeoutFires (s : SysState) : SysState × List (List Nat) :=
  if s.autoModeState = 1 then
    let r := sendWithCrc hexGetRunningStageCmd s
    (r.1, [r.2.1])
  else (s, [])

/-! ### Frame reassembler (the `port.on('data')` handler)

In the embedded setting nothing inside the `try` block can throw: the
buffer is at least 5 bytes long, so `readUInt8(1)` succeeds, `slice`
never throws on a `Buffer`, and `parseResponse` performs no partial
reads.  `drain` is therefore the exact `while` loop; the frames it
returns are the packets handed to `parseResponse`, in order, together
with the left-over buffer. -/

def drain (buf : List Nat) : List (List Nat) × List Nat :=
  if buf.length < 5 then ([], buf)
  else if buf.getD 0 0 ≠ HEADER_BYTE then drain (buf.drop 1)
  else if buf.length < 1 + 1 + 1 + 2 + buf.getD 1 0 + 2 then ([], buf)
  else
    let r := drain (buf.drop (1 + 1 + 1 + 2 + buf.getD 1 0 + 2))
    (buf.take (1 + 1 + 1 + 2 + buf.getD 1 0 + 2) :: r.1, r.2)
termination_by buf.length
decreasing_by
  · simp only [List.length_drop]; omega
  · simp only [List.length_drop]; omega

/-- One `data` event: concatenate the chunk onto the pending buffer and
run the reassembly loop. -/
def feedChunk (buf chunk : List Nat) : List (List Nat) × List Nat :=
  drain (buf ++ chunk)

/-- A whole sequence of `data` events, collecting the emitted frames. -/
def feedChunks (buf : List Nat) : List (List Nat) → List (List Nat) × List Nat
  | [] => ([], buf)
  | c :: cs =>
      let r := feedChunk buf c
      let r' := feedChunks r.2 cs
      (r.1 ++ r'.1, r'.2)

/-- A JS exception inside the data handler: either one raised by the
frame interpreter inside the `try` block, or the `ReferenceError` raised
by the `catch` block itself when, with debug logging enabled, it
evaluates `packet.toString('hex')` — `packet` being a `const` declared
inside the `try` block and hence not in scope in the `catch` block. -/
inductive JsErr where
  | interpErr
  | refErr
deriving DecidableEq, Repr

/-- The data-handler loop with its exception semantics made explicit.
`interp` models `parseResponse` as possibly throwing (in the embedded
code it never does, but the claim quantifies over the hypothetical).
Result `(some e, b)` means exception `e` escaped the handler with
`packetBuffer` still equal to `b`; `(none, b)` means the handler
returned normally with `packetBuffer = b`.  The `catch` block clears the
buffer only on its `isDbgLogEnabled = false` path; on the `true` path it
dereferences the out-of-scope `packet` and the resulting
`ReferenceError` escapes before `packetBuffer` is reassigned. -/
def drainExc (dbg : Bool) (interp : List Nat → Except JsErr Unit)
    (buf : List Nat) : Option JsErr × List Nat :=
  if buf.length < 5 then (none, buf)
  else if buf.getD 0 0 ≠ HEADER_BYTE then drainExc dbg interp (buf.drop 1)
  else if buf.length < 1 + 1 + 1 + 2 + buf.getD 1 0 + 2 then (none, buf)
  else
    match interp (buf.take (1 + 1 + 1 + 2 + buf.getD 1 0 + 2)) with
    | Except.ok _ => drainExc dbg interp (buf.drop (1 + 1 + 1 + 2 + buf.getD 1 0 + 2))
    | Except.error _ =>
        if dbg then (some JsErr.refErr, buf) else (none, [])
termination_by buf.length
decreasing_by
  · simp only [List.length_drop]; omega
  · simp only [List.length_drop]; omega

/-! ### Inventory CSV parsing (`parseInventoryData`)

JS `String.prototype.split` with a one-character separator and
`String.prototype.trim` are embedded as structurally recursive
character-list functions (`split('\n')` on `"a\nb\n"` yields
`["a","b",""]`, exactly as below). -/

/-- `s.split(sep)` for a one-character separator. -/
def splitOnChar (sep : Char) : List Char → List (List Char)
  | [] => [[]]
  | c :: rest =>
      let r := splitOnChar sep rest
      if c = sep then [] :: r
      else
        match r with
        | [] => [[c]]
        | h :: t => (c :: h) :: t

/-- `s.split(sep)` on a `String`. -/
def jsSplit (sep : Char) (s : String) : List String :=
  (splitOnChar sep s.data).map (fun cs => String.mk cs)

/-- The whitespace characters relevant to the inventory inputs. -/
def isWsChar (c : Char) : Bool :=
  c = ' ' ∨ c = '\t' ∨ c = '\n' ∨ c = '\r'

/-- `s.trim()`: strip leading and trailing whitespace. -/
def jsTrim (s : String) : String :=
  String.mk (((s.data.dropWhile isWsChar).reverse.dropWhile isWsChar).reverse)

/-- `Array.prototype.indexOf`, as an `Option`-valued index. -/
def jsIndexOf (l : List String) (s : String) : Option Nat :=
  match l with
  | [] => none
  | a :: t => if a = s then some 0 else (jsIndexOf t s).map (fun n => n + 1)

/-- `parseInt(values[k], 10)` on an optional cell: `none` models `NaN`
(missing cell or non-numeric text; sign/prefix parsing is not needed by
any claim). -/
def jsParseInt (v : Option String) : Option Nat :=
  match v with
  | none => none
  | some str => (jsTrim str).toNat?

/-- The row loop of `parseInventoryData` (`for i = 1; i < lines.length`),
carried over the already-parsed map.  A row whose cells do not reach the
EPC column is treated as an empty EPC (the source would throw on
`undefined.trim()`; no claim exercises that path). -/
def parseInventoryRows (idIndex : Option Nat) (eIdx : Nat)
    (itemIndex : Option Nat) :
    List String → Nat → List (String × InvEntry) → List (String × InvEntry)
  | [], _, acc => acc
  | line :: rest, i, acc =>
      let values := jsSplit ',' line
      let id := match idIndex with
                | some k => jsParseInt (values.get? k)
                | none => some i
      let epc := jsTrim (values.getD eIdx "")
      let item := match itemIndex with
                  | some k => jsTrim (values.getD k "")
                  | none => "N/A"
      let acc' := if epc ≠ "" then
                    jsMapSet acc epc { id := id, epc := epc, item := item }
                  else acc
      parseInventoryRows idIndex eIdx itemIndex rest (i + 1) acc'

/-- `parseInventoryData(csvData)`: the function body begins with
`inventoryData.clear()`, so the resulting map never depends on the
previous one; every early `return` (no non-blank lines, or no `EPC`
header) leaves the map empty. -/
def parseInventoryData (csvData : String) : List (String × InvEntry) :=
  let lines := (jsSplit '\n' csvData).filter (fun line => jsTrim line ≠ "")
  if lines.length = 0 then []
  else
    let headers := (jsSplit ',' (lines.getD 0 "")).map jsTrim
    let idIndex := jsIndexOf headers "id"
    let epcIndex := jsIndexOf headers "EPC"
    let itemIndex := jsIndexOf headers "item"
    match epcIndex with
    | none => []
    | some eIdx => parseInventoryRows idIndex eIdx itemIndex (lines.drop 1) 1 []

/-- The `upload_inventory:` WebSocket command applied to the state: the
in-memory index is replaced by whatever `parseInventoryData` leaves in
the map. -/
def uploadInventory (csvData : String) (s : SysState) : SysState :=
  { s with inventoryData := parseInventoryData csvData }

/-- The header row of an inventory input, as `parseInventoryData`
computes it. -/
def inventoryHeaders (csvData : String) : List String :=
  (jsSplit ','
    (((jsSplit '\n' csvData).filter (fun line => jsTrim line ≠ "")).getD 0 "")).map
    jsTrim

/-! ### Derived operations and concrete fixtures -/

/-- The read-tag branch's per-observation table update:
`readTagScans.set(epcHex, (readTagScans.get(epcHex) || 0) + 1)`. -/
def readTagObserve (t : List (String × Nat)) (e : String) : List (String × Nat) :=
  jsMapSet t e ((jsMapGet t e).getD 0 + 1)

/-- The `readTagScans` table after a whole observation sequence of a
read-tag session (the table starts empty). -/
def buildTable (obs : List String) : List (String × Nat) :=
  obs.foldl readTagObserve []

/-- A running-stage reply frame reporting `STAGE_APP` (0x12). -/
def stageAppFrame : List Nat := [0xFF, 0x01, 0x0C, 0x00, 0x00, 0x12, 0x00, 0x00]

/-- A running-stage reply frame reporting `STAGE_BOOTLOADER` (0x11). -/
def stageBootFrame : List Nat := [0xFF, 0x01, 0x0C, 0x00, 0x00, 0x11, 0x00, 0x00]

/-- The state of `main()` at start-up in auto mode, before
`startAutoMode` runs. -/
def autoInitState : SysState :=
  ⟨Mode.auto, false, 0, false, [], [], [], [], []⟩

/-- The session state of a read-tag scan with one open subscriber. -/
def readTagSessionState : SysState :=
  ⟨Mode.readTag, false, 2, true, [], [], [], [], [true]⟩

/-- A tag-read frame (command 0x21, status 0) whose payload isolates the
single identifier byte 0xAA (rendered "AA"). -/
def tagFrameA : List Nat :=
  [0xFF, 0x08, 0x21, 0x00, 0x00, 0, 0, 0, 0, 0, 0xAA, 0, 0, 0, 0]

/-- Like `tagFrameA` with identifier byte 0xBB (rendered "BB"). -/
def tagFrameB : List Nat :=
  [0xFF, 0x08, 0x21, 0x00, 0x00, 0, 0, 0, 0, 0, 0xBB, 0, 0, 0, 0]

/-- `tagFrameA` with its trailing two CRC bytes replaced by 0x99 0x99. -/
def tagFrameA' : List Nat :=
  [0xFF, 0x08, 0x21, 0x00, 0x00, 0, 0, 0, 0, 0, 0xAA, 0, 0, 0x99, 0x99]

/-- A tag-read frame (command 0x21, status 0) whose 3-byte payload is
shorter than the 5-byte prefix plus 2-byte suffix the decoder trims. -/
def shortTagFrame : List Nat :=
  [0xFF, 0x03, 0x21, 0x00, 0x00, 1, 2, 3, 0, 0]

/-- A scanning state in unfiltered (auto) mode: one open subscriber,
an empty inventory, and one window entry for identifier `E100` with a
non-zero counter. -/
def c7State : SysState :=
  ⟨Mode.auto, false, 2, true, [], [],
   [("E100", { count := 1, timestamp := "t0" })], [], [true]⟩

/-- A filtered-mode scanning state whose window holds one identifier
present in the inventory, with one open subscriber. -/
def c7WitnessState : SysState :=
  ⟨Mode.inventory, true, 2, true, [], [],
   [("E100", { count := 2, timestamp := "t1" })],
   [("E100", { id := some 1, epc := "E100", item := "widget" })], [true]⟩

/-- A state whose active InventoryIndex holds one entry. -/
def c8State : SysState :=
  ⟨Mode.inventory, true, 2, true, [], [], [],
   [("E100", { id := some 1, epc := "E100", item := "widget" })], []⟩

/-- An unfiltered (auto-mode) scanning state with empty tables. -/
def c9AutoState : SysState :=
  ⟨Mode.auto, false, 2, true, [], [], [], [], []⟩

/-- A filtered-mode scanning state whose inventory was loaded from a
well-formed input (hence has no empty-identifier entry). -/
def c9FilteredState : SysState :=
  ⟨Mode.inventory, true, 2, true, [], [], [],
   [("E100", { id := some 1, epc := "E100", item := "widget" })], [true]⟩

/-! ### Helper lemmas -/

/-! ### Proof that the implementation bit step matches the reference -/

theorem and_two_pow_eq_self_iff_testBit (v k : Nat) :
    ((v &&& 2 ^ k) == 2 ^ k) = v.testBit k := by
  rw [Nat.and_two_pow]
  cases h : v.testBit k
  · simp [(Nat.two_pow_pos k).ne]
  · simp

theorem mask_shift_eq_two_pow {i : Nat} (h : i < 8) :
    (0x80 >>> i) = 2 ^ (7 - i) := by
  interval_cases i <;> rfl

theorem crcBitStep_eq_spec (r : Nat) (b : Bool) :
    crcBitStep MSG_CCITT_CRC_POLY r b = crcSpecBitStep r b := by
  unfold crcBitStep crcSpecBitStep MSG_CCITT_CRC_POLY
  have hshift : (r <<< 1) &&& 0xFFFF = (r * 2) % 65536 := by
    have h1 : r <<< 1 = r * 2 := by
      rw [Nat.shiftLeft_eq, pow_one]
    have h2 : (0xFFFF : Nat) = 2 ^ 16 - 1 := by norm_num
    rw [h1, h2, Nat.and_pow_two_sub_one_eq_mod]
  have hflag : (r &&& 0x8000 > 0) ↔ r.testBit 15 = true := by
    have h15 : (0x8000 : Nat) = 2 ^ 15 := by norm_num
    rw [h15, Nat.and_two_pow]
    cases h : r.testBit 15
    · simp
    · simp [Nat.two_pow_pos]
  simp only [hshift]
  by_cases hb : r.testBit 15 = true
  · rw [if_pos (hflag.mpr hb), if_pos hb]
  · rw [if_neg (fun hc => hb (hflag.mp hc)), if_neg hb]

theorem crc8_eq_spec (r v : Nat) :
    crc8 MSG_CCITT_CRC_POLY r v = crcSpecByte r v := by
  unfold crc8 crcSpecByte
  apply List.foldl_ext
  intro acc i hi
  have hi8 : i < 8 := List.mem_range.mp hi
  rw [crcBitStep_eq_spec]
  congr 1
  rw [mask_shift_eq_two_pow hi8, and_two_pow_eq_self_iff_testBit]

theorem CRC_calculate_eq_reference (data : List Nat) :
    CRC_calculate data = crcReference data := by
  unfold CRC_calculate crcReference MSG_CRC_INIT
  apply List.foldl_ext
  intro acc b _
  exact crc8_eq_spec acc b

theorem crcSpecBitStep_lt (r : Nat) (b : Bool) : crcSpecBitStep r b < 65536 := by
  unfold crcSpecBitStep
  have h1 : (r * 2) % 65536 < 65536 := Nat.mod_lt _ (by norm_num)
  have h2 : ((r * 2) % 65536) ||| (if b then 1 else 0) < 65536 := by
    have h16 : (65536 : Nat) = 2 ^ 16 := by norm_num
    rw [h16] at h1 ⊢
    exact Nat.or_lt_two_pow h1 (by cases b <;> norm_num)
  by_cases hb : r.testBit 15
  · simp only [if_pos hb]
    have : (65536 : Nat) = 2 ^ 16 := by norm_num
    rw [this] at h2 ⊢
    exact Nat.xor_lt_two_pow h2 (by norm_num)
  · simpa [hb] using h2

theorem crcSpecByte_lt (r v : Nat) (h : r < 65536) : crcSpecByte r v < 65536 := by
  unfold crcSpecByte
  induction (List.range 8) generalizing r with
  | nil => simpa using h
  | cons a t ih => exact ih _ (crcSpecBitStep_lt r _)

theorem crcReference_lt (data : List Nat) : crcReference data < 65536 := by
  unfold crcReference
  have : ∀ r, r < 65536 → data.foldl crcSpecByte r < 65536 := by
    induction data with
    | nil => intro r h; simpa using h
    | cons a t ih => intro r h; exact ih _ (crcSpecByte_lt r a h)
  exact this _ (by norm_num)

theorem getD_append_left {α : Type} (l l' : List α) (d : α) (n : Nat)
    (h : n < l.length) : (l ++ l').getD n d = l.getD n d := by
  simp [List.getD_eq_getElem?_getD, List.getElem?_append_left h]

theorem sendWithCrc_packet (data : List Nat) (s : SysState) :
    (sendWithCrc data s).2.1 = data ++ u16be (CRC_calculate (List.drop 1 data)) := by
  unfold sendWithCrc
  split
  · rfl
  · split
    · split <;> rfl
    · rfl

/-! ### Claim C1 -/

/-- C1: for every byte sequence, `CRC.calculate` equals the reference
CRC-16/CCITT definition (register 0xFFFF, MSB-first bits, shift left
truncated to 16 bits, OR in the bit, XOR 0x1021 when the pre-shift MSB
was set); the value always fits 16 bits; and `sendWithCrc` appends
exactly this value big-endian as two bytes, computed over all bytes of
the outgoing command after the header byte. -/
theorem C1_crc_reference_and_send :
    (∀ data : List Nat, CRC_calculate data = crcReference data) ∧
    (∀ data : List Nat, crcReference data < 65536) ∧
    (∀ (data : List Nat) (s : SysState),
      (sendWithCrc data s).2.1 =
        data ++ [crcReference (List.drop 1 data) / 256,
                 crcReference (List.drop 1 data) % 256]) := by
  refine ⟨CRC_calculate_eq_reference, crcReference_lt, ?_⟩
  intro data s
  have hlt := crcReference_lt (List.drop 1 data)
  rw [sendWithCrc_packet, CRC_calculate_eq_reference]
  unfold u16be
  have hdiv : crcReference (List.drop 1 data) / 256 % 256 =
      crcReference (List.drop 1 data) / 256 := by
    apply Nat.mod_eq_of_lt
    omega
  rw [hdiv]

/-! ### Claim C3 -/

/-- C3: whenever the reassembler's buffer holds at least 5 bytes, one
loop step behaves exactly as specified: a non-header first byte drops
exactly one byte and retries; otherwise with total length
`5 + payload_length + 2`, an incomplete frame emits nothing and keeps
the buffer, and a complete one is emitted as exactly that many bytes
and removed from the buffer. -/
theorem C3_reassembler_step (buf : List Nat) (h5 : 5 ≤ buf.length) :
    (buf.getD 0 0 ≠ HEADER_BYTE → drain buf = drain (buf.drop 1)) ∧
    (buf.getD 0 0 = HEADER_BYTE →
      (buf.length < 5 + buf.getD 1 0 + 2 → drain buf = ([], buf)) ∧
      (5 + buf.getD 1 0 + 2 ≤ buf.length →
        drain buf =
          (buf.take (5 + buf.getD 1 0 + 2) ::
             (drain (buf.drop (5 + buf.getD 1 0 + 2))).1,
           (drain (buf.drop (5 + buf.getD 1 0 + 2))).2))) := by
  constructor
  · intro hne
    conv_lhs => rw [drain]
    rw [if_neg (by omega), if_pos hne]
  · intro heq
    constructor
    · intro hlt
      conv_lhs => rw [drain]
      rw [if_neg (by omega), if_neg (by simpa using heq), if_pos (by omega)]
    · intro hge
      conv_lhs => rw [drain]
      rw [if_neg (by omega), if_neg (by simpa using heq), if_neg (by omega)]

/-- Witness for C3 at the concrete buffer `FF 01 00 00 00 09 00 00`
(header, length 1, one payload byte, two CRC bytes): the step emits the
whole 8-byte frame and empties the buffer. -/
theorem C3_reassembler_step_witness :
    drain [0xFF, 1, 0, 0, 0, 9, 0, 0] = ([[0xFF, 1, 0, 0, 0, 9, 0, 0]], []) := by
  have h := ((C3_reassembler_step [0xFF, 1, 0, 0, 0, 9, 0, 0]
      (by decide)).2 (by decide)).2 (by decide)
  rw [h]
  norm_num
  rw [drain]
  norm_num

/-! ### Claim C2 -/

/-- Unfolding of `drain` when the buffer starts with a non-header byte. -/
theorem drain_drop_one {x : List Nat} (h5 : ¬x.length < 5)
    (hne : x.getD 0 0 ≠ HEADER_BYTE) : drain x = drain (List.drop 1 x) := by
  rw [drain, if_neg h5, if_pos hne]

/-- Unfolding of `drain` when a full frame is buffered. -/
theorem drain_emit {x : List Nat} (h5 : ¬x.length < 5)
    (hhd : x.getD 0 0 = HEADER_BYTE)
    (hlen : ¬x.length < 1 + 1 + 1 + 2 + x.getD 1 0 + 2) :
    drain x =
      (x.take (1 + 1 + 1 + 2 + x.getD 1 0 + 2) ::
         (drain (x.drop (1 + 1 + 1 + 2 + x.getD 1 0 + 2))).1,
       (drain (x.drop (1 + 1 + 1 + 2 + x.getD 1 0 + 2))).2) := by
  rw [drain, if_neg h5, if_neg (by simpa using hhd), if_neg hlen]

/-- Unfolding of `drain` when it stops waiting for more bytes. -/
theorem drain_wait {x : List Nat} (h5 : ¬x.length < 5)
    (hhd : x.getD 0 0 = HEADER_BYTE)
    (hlen : x.length < 1 + 1 + 1 + 2 + x.getD 1 0 + 2) :
    drain x = ([], x) := by
  rw [drain, if_neg h5, if_neg (by simpa using hhd), if_pos hlen]

theorem drain_short {x : List Nat} (h5 : x.length < 5) : drain x = ([], x) := by
  rw [drain, if_pos h5]

/-- The loop is incremental: draining `b ++ c` first drains `b`, then
drains the residue of `b` extended with `c`. -/
theorem drain_streaming (b c : List Nat) :
    drain (b ++ c) =
      ((drain b).1 ++ (drain ((drain b).2 ++ c)).1,
       (drain ((drain b).2 ++ c)).2) := by
  induction b using drain.induct with
  | case1 x hlt =>
      rw [drain_short hlt]
      simp
  | case2 x h5 hne ih =>
      have hlen : ¬(x ++ c).length < 5 := by
        simp only [List.length_append]
        omega
      have hhd : (x ++ c).getD 0 0 = x.getD 0 0 :=
        getD_append_left x c 0 0 (by omega)
      have hdrop : (x ++ c).drop 1 = x.drop 1 ++ c :=
        List.drop_append_of_le_length (by omega)
      rw [drain_drop_one hlen (by rw [hhd]; exact hne), hdrop, ih,
        drain_drop_one h5 hne]
  | case3 x h5 hhd hlt =>
      rw [drain_wait h5 (by simpa using hhd) (by simpa using hlt)]
      simp
  | case4 x h5 hhd hlen ih =>
      have hx0 : x.getD 0 0 = HEADER_BYTE := by simpa using hhd
      have hxlen : ¬x.length < 1 + 1 + 1 + 2 + x.getD 1 0 + 2 := by
        simpa using hlen
      have hT : 1 + 1 + 1 + 2 + x.getD 1 0 + 2 ≤ x.length := by omega
      have hlen' : ¬(x ++ c).length < 5 := by
        simp only [List.length_append]
        omega
      have hhd' : (x ++ c).getD 0 0 = x.getD 0 0 :=
        getD_append_left x c 0 0 (by omega)
      have hg1 : (x ++ c).getD 1 0 = x.getD 1 0 :=
        getD_append_left x c 0 1 (by omega)
      have htake : (x ++ c).take (1 + 1 + 1 + 2 + x.getD 1 0 + 2) =
          x.take (1 + 1 + 1 + 2 + x.getD 1 0 + 2) :=
        List.take_append_of_le_length hT
      have hdrop : (x ++ c).drop (1 + 1 + 1 + 2 + x.getD 1 0 + 2) =
          x.drop (1 + 1 + 1 + 2 + x.getD 1 0 + 2) ++ c :=
        List.drop_append_of_le_length hT
      have hxc := drain_emit (x := x ++ c) hlen' (by rw [hhd']; exact hx0)
        (by rw [hg1]; simp only [List.length_append]; omega)
      rw [hg1] at hxc
      rw [hxc, htake, hdrop, ih, drain_emit h5 hx0 hxlen]
      simp

/-- The residue a drain leaves behind is inert: draining it again emits
nothing and keeps it unchanged. -/
theorem drain_residue_stuck (x : List Nat) :
    drain (drain x).2 = ([], (drain x).2) := by
  induction x using drain.induct with
  | case1 x hlt =>
      rw [drain_short hlt]
      exact drain_short hlt
  | case2 x h5 hne ih =>
      rw [drain_drop_one h5 hne]
      exact ih
  | case3 x h5 hhd hlt =>
      rw [drain_wait h5 (by simpa using hhd) (by simpa using hlt)]
      exact drain_wait h5 (by simpa using hhd) (by simpa using hlt)
  | case4 x h5 hhd hlen ih =>
      rw [drain_emit h5 (by simpa using hhd) (by simpa using hlen)]
      exact ih

theorem feedChunks_eq_drain (chunks : List (List Nat)) :
    ∀ buf : List Nat, drain buf = ([], buf) →
      feedChunks buf chunks = drain (buf ++ chunks.flatten) := by
  induction chunks with
  | nil =>
      intro buf hstuck
      simp only [feedChunks, List.flatten_nil, List.append_nil, hstuck]
  | cons c cs ih =>
      intro buf hstuck
      have hres : drain ((drain (buf ++ c)).2) = ([], (drain (buf ++ c)).2) :=
        drain_residue_stuck (buf ++ c)
      have hih := ih (drain (buf ++ c)).2 hres
      have hflat : buf ++ (c :: cs).flatten = (buf ++ c) ++ cs.flatten := by
        simp [List.flatten_cons, List.append_assoc]
      rw [hflat, drain_streaming (buf ++ c) cs.flatten]
      simp only [feedChunks, feedChunk, hih]

/-- C2: for every byte stream and every way of splitting it into chunks,
feeding the chunks one at a time to the data handler produces exactly
the same sequence of emitted frames (and the same left-over buffer) as
feeding the whole stream in one chunk. -/
theorem C2_chunking_invariance (chunks : List (List Nat)) :
    feedChunks [] chunks = feedChunks [] [chunks.flatten] := by
  have hempty : drain ([] : List Nat) = ([], []) := drain_short (by simp)
  rw [feedChunks_eq_drain chunks [] hempty,
    feedChunks_eq_drain [chunks.flatten] [] hempty]
  simp

/-! ### Claim C4 -/

/-- C4 (code bug): if an exception is raised while interpreting a
candidate frame and debug logging is enabled (the default,
`--dbg` defaults to `true`), the `catch` block itself raises a
`ReferenceError` — it logs `packet.toString('hex')`, but `packet` is a
`const` declared inside the `try` block and is not in scope in the
`catch` block — so the exception escapes the data handler and the
buffer is NOT discarded.  Only with debug logging disabled does the
handler behave as the spec says (buffer discarded, nothing escapes).
Evaluated at the concrete 7-byte frame `FF 00 00 00 00 00 00` with an
interpreter that throws. -/
theorem C4_catch_block_reference_error :
    drainExc true (fun _ => Except.error JsErr.interpErr)
        [0xFF, 0, 0, 0, 0, 0, 0] =
      (some JsErr.refErr, [0xFF, 0, 0, 0, 0, 0, 0]) ∧
    drainExc false (fun _ => Except.error JsErr.interpErr)
        [0xFF, 0, 0, 0, 0, 0, 0] =
      (none, []) := by
  constructor
  · rw [drainExc]
    norm_num [HEADER_BYTE]
  · rw [drainExc]
    norm_num [HEADER_BYTE]

/-! ### Claim C5 -/

/-- `sendWithCrc` on the begin-scan command: marks scanning, clears both
counter tables, writes the command plus CRC. -/
theorem sendWithCrc_scanStart (s : SysState) :
    sendWithCrc hexScanStartCmd s =
      ({ s with isScanning := true, scannedTagsCumulative := [],
                scannedTagsRefresh := [] },
       hexScanStartCmd ++ u16be (CRC_calculate (List.drop 1 hexScanStartCmd)),
       []) := by
  unfold sendWithCrc
  rw [if_pos (by decide)]

/-- `sendWithCrc` on a command that is neither begin-scan nor end-scan
only writes the packet. -/
theorem sendWithCrc_plain (data : List Nat) (s : SysState)
    (h1 : ¬(hexScanStartCmd.isPrefixOf data = true))
    (h2 : ¬(hexScanStopCmd.isPrefixOf data = true)) :
    sendWithCrc data s =
      (s, data ++ u16be (CRC_calculate (List.drop 1 data)), []) := by
  unfold sendWithCrc
  rw [if_neg h1, if_neg h2]

/-- `parseResponse` on a stage = Application reply with
`autoModeState = 1` in a scan-capable mode: send begin-scan, enter
state 2. -/
theorem parseResponse_stageApp (s : SysState) (now : String)
    (hmode : s.mode = Mode.auto ∨ s.mode = Mode.inventory ∨ s.mode = Mode.readTag)
    (h1 : s.autoModeState = 1) :
    parseResponse stageAppFrame now s =
      ({ s with autoModeState := 2, isScanning := true,
                scannedTagsCumulative := [], scannedTagsRefresh := [] },
       [hexScanStartCmd ++ u16be (CRC_calculate (List.drop 1 hexScanStartCmd))],
       []) := by
  simp only [parseResponse]
  rw [if_neg (by decide : ¬(stageAppFrame.getD 0 0 ≠ HEADER_BYTE))]
  rw [if_neg (by decide :
    ¬(stageAppFrame.getD 2 0 = CMD_START_APP ∧ stageAppFrame = startAppAckFrame))]
  rw [if_pos (by decide : stageAppFrame.getD 2 0 = CMD_GET_RUNNING_STAGE)]
  rw [if_pos (by decide :
    ((stageAppFrame.drop 5).take (stageAppFrame.getD 1 0)).getD 0 0 = STAGE_APP)]
  rw [if_pos ⟨hmode, h1⟩]
  rw [sendWithCrc_scanStart]

/-- `parseResponse` on a stage = Bootloader reply with
`autoModeState = 1` in a scan-capable mode: send start-application
again, fall to state 0. -/
theorem parseResponse_stageBoot (s : SysState) (now : String)
    (hmode : s.mode = Mode.auto ∨ s.mode = Mode.inventory ∨ s.mode = Mode.readTag)
    (h1 : s.autoModeState = 1) :
    parseResponse stageBootFrame now s =
      ({ s with autoModeState := 0 },
       [hexStartAppCmd ++ u16be (CRC_calculate (List.drop 1 hexStartAppCmd))],
       []) := by
  simp only [parseResponse]
  rw [if_neg (by decide : ¬(stageBootFrame.getD 0 0 ≠ HEADER_BYTE))]
  rw [if_neg (by decide :
    ¬(stageBootFrame.getD 2 0 = CMD_START_APP ∧ stageBootFrame = startAppAckFrame))]
  rw [if_pos (by decide : stageBootFrame.getD 2 0 = CMD_GET_RUNNING_STAGE)]
  rw [if_neg (by decide :
    ¬(((stageBootFrame.drop 5).take (stageBootFrame.getD 1 0)).getD 0 0 = STAGE_APP))]
  rw [if_pos (by decide :
    ((stageBootFrame.drop 5).take (stageBootFrame.getD 1 0)).getD 0 0 =
      STAGE_BOOTLOADER)]
  rw [if_pos ⟨hmode, h1⟩]
  rw [sendWithCrc_plain hexStartAppCmd _ (by decide) (by decide)]

/-- C5 counterexample: `startAutoMode` sets `autoModeState = 1`
(`AppStartRequested`), but after the timeout fires and a
stage = Bootloader reply is handled, the code sets `autoModeState = 0`
— not back to `AppStartRequested` (1) as the claim says — and a
subsequent stage = Application reply is then ignored entirely (no
begin-scan, no state change), instead of driving the machine to
`Scanning`. -/
theorem C5_bootloader_counterexample :
    (startAutoMode autoInitState).1.autoModeState = 1 ∧
    (autoTimeoutFires (startAutoMode autoInitState).1).1.autoModeState = 1 ∧
    (parseResponse stageBootFrame "t0"
        (autoTimeoutFires (startAutoMode autoInitState).1).1).1.autoModeState = 0 ∧
    parseResponse stageAppFrame "t0"
        (parseResponse stageBootFrame "t0"
          (autoTimeoutFires (startAutoMode autoInitState).1).1).1 =
      ((parseResponse stageBootFrame "t0"
          (autoTimeoutFires (startAutoMode autoInitState).1).1).1, [], []) := by
  decide

/-- C5 amended: the code has no distinct `StageQueried` value.  When the
2000 ms timeout fires with `autoModeState = 1`, the query-running-stage
command is sent and the state stays 1; a stage = Application reply in
state 1 sends begin-scan and moves to state 2 (`Scanning`); a
stage = Bootloader reply in state 1 sends start-application again but
moves to state 0, from which the timeout callback does nothing (no
timeout is re-armed; recovery relies on the app-start acknowledgment
frame). -/
theorem C5_handshake_amended (s : SysState) (now : String)
    (hmode : s.mode = Mode.auto ∨ s.mode = Mode.inventory ∨ s.mode = Mode.readTag) :
    (s.autoModeState = 1 →
      autoTimeoutFires s =
        (s, [hexGetRunningStageCmd ++
              u16be (CRC_calculate (List.drop 1 hexGetRunningStageCmd))])) ∧
    (s.autoModeState ≠ 1 → autoTimeoutFires s = (s, [])) ∧
    (s.autoModeState = 1 →
      parseResponse stageAppFrame now s =
        ({ s with autoModeState := 2, isScanning := true,
                  scannedTagsCumulative := [], scannedTagsRefresh := [] },
         [hexScanStartCmd ++ u16be (CRC_calculate (List.drop 1 hexScanStartCmd))],
         []) ∧
      parseResponse stageBootFrame now s =
        ({ s with autoModeState := 0 },
         [hexStartAppCmd ++ u16be (CRC_calculate (List.drop 1 hexStartAppCmd))],
         [])) := by
  refine ⟨?_, ?_, ?_⟩
  · intro h1
    unfold autoTimeoutFires
    rw [if_pos h1, sendWithCrc_plain hexGetRunningStageCmd s (by decide) (by decide)]
  · intro h1
    unfold autoTimeoutFires
    rw [if_neg h1]
  · intro h1
    exact ⟨parseResponse_stageApp s now hmode h1,
           parseResponse_stageBoot s now hmode h1⟩

/-- Witness for C5 amended at a concrete state with `autoModeState = 1`
in auto mode. -/
theorem C5_handshake_amended_witness :
    parseResponse stageAppFrame "t0" { autoInitState with autoModeState := 1 } =
      ({ autoInitState with autoModeState := 2, isScanning := true },
       [hexScanStartCmd ++ u16be (CRC_calculate (List.drop 1 hexScanStartCmd))],
       []) := by
  have h := ((C5_handshake_amended { autoInitState with autoModeState := 1 } "t0"
      (Or.inl rfl)).2.2 rfl).1
  rw [h]
  rfl

/-! ### Claim C6 -/

theorem jsMapGet_set_self {α : Type} (t : List (String × α)) (k : String) (v : α) :
    jsMapGet (jsMapSet t k v) k = some v := by
  induction t with
  | nil => simp [jsMapSet, jsMapGet]
  | cons hd tl ih =>
      by_cases h : hd.1 = k
      · simp [jsMapSet, jsMapGet, h]
      · simp only [jsMapSet, jsMapGet, if_neg h]
        exact ih

theorem jsMapGet_set_ne {α : Type} (t : List (String × α)) (k k' : String) (v : α)
    (h : k' ≠ k) : jsMapGet (jsMapSet t k v) k' = jsMapGet t k' := by
  induction t with
  | nil => simp [jsMapSet, jsMapGet, Ne.symm h]
  | cons hd tl ih =>
      by_cases hh : hd.1 = k
      · simp only [jsMapSet, if_pos hh, jsMapGet]
        rw [if_neg (fun hc : k = k' => Ne.symm h hc),
          if_neg (fun hc : hd.1 = k' => Ne.symm h (hh.symm.trans hc))]
      · simp only [jsMapSet, if_neg hh, jsMapGet]
        by_cases hk : hd.1 = k'
        · rw [if_pos hk, if_pos hk]
        · rw [if_neg hk, if_neg hk]
          exact ih

/-- The key list after a `Map.set`: unchanged when the key is present,
extended at the tail when fresh. -/
theorem jsMapSet_keys {α : Type} (t : List (String × α)) (k : String) (v : α) :
    (jsMapSet t k v).map Prod.fst =
      if k ∈ t.map Prod.fst then t.map Prod.fst else t.map Prod.fst ++ [k] := by
  induction t with
  | nil => simp [jsMapSet]
  | cons hd tl ih =>
      by_cases h : hd.1 = k
      · simp [jsMapSet, h]
      · have hne : ¬k = hd.1 := fun hc => h hc.symm
        simp only [jsMapSet, if_neg h, List.map_cons, List.mem_cons, ih]
        by_cases hm : k ∈ tl.map Prod.fst
        · rw [if_pos hm, if_pos (Or.inr hm)]
        · rw [if_neg hm, if_neg (fun hc => hc.elim hne (fun hx => hm hx))]
          simp

theorem jsMapSet_keys_nodup {α : Type} (t : List (String × α)) (k : String) (v : α)
    (h : (t.map Prod.fst).Nodup) : ((jsMapSet t k v).map Prod.fst).Nodup := by
  rw [jsMapSet_keys]
  by_cases hm : k ∈ t.map Prod.fst
  · rw [if_pos hm]
    exact h
  · rw [if_neg hm]
    refine List.Nodup.append h (List.nodup_singleton k) ?_
    intro a ha hb
    rw [List.mem_singleton] at hb
    exact hm (hb ▸ ha)

/-- With no duplicate keys, membership of an entry determines the lookup. -/
theorem jsMapGet_of_mem {α : Type} (t : List (String × α))
    (hnd : (t.map Prod.fst).Nodup) :
    ∀ p ∈ t, jsMapGet t p.1 = some p.2 := by
  induction t with
  | nil => intro p hp; cases hp
  | cons hd tl ih =>
      intro p hp
      rcases List.mem_cons.mp hp with hph | hpt
      · subst hph
        simp [jsMapGet]
      · have hnd' : (tl.map Prod.fst).Nodup := (List.nodup_cons.mp hnd).2
        have hhd : hd.1 ∉ tl.map Prod.fst := (List.nodup_cons.mp hnd).1
        have hne : hd.1 ≠ p.1 := by
          intro hc
          exact hhd (hc ▸ List.mem_map_of_mem Prod.fst hpt)
        simp only [jsMapGet, if_neg hne]
        exact ih hnd' p hpt

theorem buildTable_snoc (obs : List String) (e : String) :
    buildTable (obs ++ [e]) = readTagObserve (buildTable obs) e := by
  unfold buildTable
  rw [List.foldl_append]
  rfl

theorem buildTable_keys_nodup (obs : List String) :
    ((buildTable obs).map Prod.fst).Nodup := by
  induction obs using List.reverseRecOn with
  | nil => simp [buildTable]
  | append_singleton l e ih =>
      rw [buildTable_snoc]
      exact jsMapSet_keys_nodup _ _ _ ih

/-- The table lookup is exactly the occurrence count of the identifier
in the observation sequence so far. -/
theorem buildTable_get (obs : List String) (k : String) :
    jsMapGet (buildTable obs) k =
      if obs.count k = 0 then none else some (obs.count k) := by
  induction obs using List.reverseRecOn with
  | nil => simp [buildTable, jsMapGet]
  | append_singleton l e ih =>
      rw [buildTable_snoc]
      unfold readTagObserve
      by_cases hk : k = e
      · subst hk
        rw [jsMapGet_set_self, ih]
        have hc : (l ++ [k]).count k = l.count k + 1 := by
          simp [List.count_append]
        rw [hc]
        by_cases h0 : l.count k = 0 <;> simp [h0]
      · rw [jsMapGet_set_ne _ _ _ _ hk, ih]
        have hc : (l ++ [e]).count k = l.count k := by
          simp [List.count_append, List.count_singleton]
          intro hce
          exact hk hce.symm
        rw [hc]

theorem buildTable_counts (obs : List String) :
    ∀ p ∈ buildTable obs, p.2 = obs.count p.1 := by
  intro p hp
  have hget := jsMapGet_of_mem (buildTable obs) (buildTable_keys_nodup obs) p hp
  rw [buildTable_get] at hget
  by_cases h0 : obs.count p.1 = 0
  · rw [if_pos h0] at hget
    cases hget
  · rw [if_neg h0] at hget
    exact (Option.some.injEq _ _).mp hget.symm

theorem jsMapSet_ne_nil {α : Type} (t : List (String × α)) (k : String) (v : α) :
    jsMapSet t k v ≠ [] := by
  cases t with
  | nil => simp [jsMapSet]
  | cons hd tl =>
      unfold jsMapSet
      by_cases h : hd.1 = k <;> simp [h]

theorem buildTable_ne_nil (obs : List String) (h : obs ≠ []) :
    buildTable obs ≠ [] := by
  induction obs using List.reverseRecOn with
  | nil => exact absurd rfl h
  | append_singleton l e _ =>
      rw [buildTable_snoc]
      exact jsMapSet_ne_nil _ _ _

/-- The `mostFrequentEpc` scan keeps the first element that strictly
exceeds the running maximum: the result is either the accumulator
(nothing exceeded it) or an element strictly preceded only by smaller
counts and followed only by counts not exceeding it. -/
theorem foldl_firstmax (l : List (String × Nat)) (acc : String × Nat) :
    (l.foldl (fun a p => if p.2 > a.2 then p else a) acc = acc ∧
      ∀ p ∈ l, p.2 ≤ acc.2) ∨
    (∃ l1 p l2, l = l1 ++ p :: l2 ∧
      l.foldl (fun a p => if p.2 > a.2 then p else a) acc = p ∧
      acc.2 < p.2 ∧ (∀ q ∈ l1, q.2 < p.2) ∧ (∀ q ∈ l2, q.2 ≤ p.2)) := by
  induction l generalizing acc with
  | nil => exact Or.inl ⟨rfl, by simp⟩
  | cons a t ih =>
      simp only [List.foldl_cons]
      by_cases ha : a.2 > acc.2
      · rw [if_pos ha]
        rcases ih a with ⟨heq, hle⟩ | ⟨l1, p, l2, hsplit, heq, hlt, hl1, hl2⟩
        · exact Or.inr ⟨[], a, t, by simp, heq, ha, by simp, hle⟩
        · refine Or.inr ⟨a :: l1, p, l2, by rw [hsplit]; rfl, heq,
            lt_trans ha hlt, ?_, hl2⟩
          intro q hq
          rcases List.mem_cons.mp hq with hqa | hql
          · exact hqa ▸ hlt
          · exact hl1 q hql
      · rw [if_neg ha]
        rcases ih acc with ⟨heq, hle⟩ | ⟨l1, p, l2, hsplit, heq, hlt, hl1, hl2⟩
        · refine Or.inl ⟨heq, ?_⟩
          intro p hp
          rcases List.mem_cons.mp hp with hpa | hpt
          · exact hpa ▸ Nat.le_of_not_lt ha
          · exact hle p hpt
        · refine Or.inr ⟨a :: l1, p, l2, by rw [hsplit]; rfl, heq, hlt, ?_, hl2⟩
          intro q hq
          rcases List.mem_cons.mp hq with hqa | hql
          · exact hqa ▸ lt_of_le_of_lt (Nat.le_of_not_lt ha) hlt
          · exact hl1 q hql

/-- C6: in read-tag mode the reported identifier after each observation
is one with the highest occurrence count seen so far in the session, and
among the entries of the table (ordered by first observation) every
entry strictly before the reported one has a strictly smaller count — a
later identifier that merely equals the running maximum never replaces
it.  In particular, feeding the handler the observation sequence
A, A, B reports A after every step. -/
theorem C6_read_tag_most_frequent :
    (∀ obs : List String, obs ≠ [] →
      ∃ c l1 l2,
        buildTable obs = l1 ++ (mostFrequentEpc (buildTable obs), c) :: l2 ∧
        c = obs.count (mostFrequentEpc (buildTable obs)) ∧
        (∀ q ∈ buildTable obs, q.2 = obs.count q.1) ∧
        (∀ q ∈ buildTable obs, q.2 ≤ c) ∧
        (∀ q ∈ l1, q.2 < c)) ∧
    ((parseResponse tagFrameA "t1" readTagSessionState).2.2 =
        [WsMsg.epcReport "AA"] ∧
      (parseResponse tagFrameA "t2"
          (parseResponse tagFrameA "t1" readTagSessionState).1).2.2 =
        [WsMsg.epcReport "AA"] ∧
      (parseResponse tagFrameB "t3"
          (parseResponse tagFrameA "t2"
            (parseResponse tagFrameA "t1" readTagSessionState).1).1).2.2 =
        [WsMsg.epcReport "AA"]) := by
  constructor
  · intro obs hobs
    have hcounts := buildTable_counts obs
    have hne := buildTable_ne_nil obs hobs
    have hpos : ∀ p ∈ buildTable obs, 1 ≤ p.2 := by
      intro p hp
      have hget := jsMapGet_of_mem (buildTable obs) (buildTable_keys_nodup obs) p hp
      rw [buildTable_get] at hget
      by_cases h0 : obs.count p.1 = 0
      · rw [if_pos h0] at hget
        cases hget
      · rw [if_neg h0] at hget
        have : p.2 = obs.count p.1 := (Option.some.injEq _ _).mp hget.symm
        omega
    rcases foldl_firstmax (buildTable obs) ("", 0) with
      ⟨heq, hle⟩ | ⟨l1, p, l2, hsplit, heq, _, hl1, hl2⟩
    · rcases List.exists_mem_of_ne_nil _ hne with ⟨p, hp⟩
      have := hpos p hp
      have := hle p hp
      omega
    · have hmf : mostFrequentEpc (buildTable obs) = p.1 := by
        unfold mostFrequentEpc
        rw [heq]
      refine ⟨p.2, l1, l2, ?_, ?_, hcounts, ?_, hl1⟩
      · rw [hmf]
        simpa using hsplit
      · rw [hmf]
        have hpmem : p ∈ buildTable obs := by
          rw [hsplit]
          exact List.mem_append_right _ (List.mem_cons_self _ _)
        exact hcounts p hpmem
      · intro q hq
        rw [hsplit] at hq
        rcases List.mem_append.mp hq with hq1 | hq2
        · exact le_of_lt (hl1 q hq1)
        · rcases List.mem_cons.mp hq2 with hqp | hql2
          · exact hqp ▸ le_refl _
          · exact hl2 q hql2
  · exact ⟨by decide, by decide, by decide⟩

/-- Witness for C6 at the concrete session A, A, B. -/
theorem C6_read_tag_most_frequent_witness :
    ∃ c l1 l2,
      buildTable ["A", "A", "B"] =
        l1 ++ (mostFrequentEpc (buildTable ["A", "A", "B"]), c) :: l2 ∧
      c = (["A", "A", "B"] : List String).count
            (mostFrequentEpc (buildTable ["A", "A", "B"])) ∧
      (∀ q ∈ buildTable ["A", "A", "B"],
        q.2 = (["A", "A", "B"] : List String).count q.1) ∧
      (∀ q ∈ buildTable ["A", "A", "B"], q.2 ≤ c) ∧
      (∀ q ∈ l1, q.2 < c) :=
  C6_read_tag_most_frequent.1 ["A", "A", "B"] (by decide)

/-! ### Claim C7 -/

/-- With no duplicate keys, two entries sharing a key are the same entry. -/
theorem key_inj {α : Type} (l : List (String × α))
    (hnd : (l.map Prod.fst).Nodup) :
    ∀ p ∈ l, ∀ q ∈ l, p.1 = q.1 → p = q := by
  induction l with
  | nil => intro p hp; cases hp
  | cons hd tl ih =>
      have hhd : hd.1 ∉ tl.map Prod.fst := (List.nodup_cons.mp hnd).1
      have hnd' : (tl.map Prod.fst).Nodup := (List.nodup_cons.mp hnd).2
      intro p hp q hq hk
      rcases List.mem_cons.mp hp with hp1 | hp2 <;>
        rcases List.mem_cons.mp hq with hq1 | hq2
      · rw [hp1, hq1]
      · have hq1' : q.1 = hd.1 := by rw [← hk, hp1]
        exact absurd (hq1' ▸ List.mem_map_of_mem Prod.fst hq2) hhd
      · have hp1' : p.1 = hd.1 := by rw [hk, hq1]
        exact absurd (hp1' ▸ List.mem_map_of_mem Prod.fst hp2) hhd
      · exact ih hnd' p hp2 q hq2 hk

theorem resolveUpdate_epc (inv : List (String × InvEntry)) (p : String × Entry)
    (rec : UpdateRec) (h : resolveUpdate inv p = some rec) : rec.epc = p.1 := by
  unfold resolveUpdate at h
  cases hg : jsMapGet inv p.1 with
  | none => rw [hg] at h; cases h
  | some item =>
      rw [hg] at h
      cases h
      rfl

theorem filter_key_nil (inv : List (String × InvEntry)) (k : String) :
    ∀ l : List (String × Entry), k ∉ l.map Prod.fst →
      (l.filterMap (resolveUpdate inv)).filter
        (fun rec => rec.epc == k) = [] := by
  intro l
  induction l with
  | nil => intro _; rfl
  | cons hd tl ih =>
      intro hk
      have hk' : k ∉ tl.map Prod.fst := fun hc => hk (List.mem_cons_of_mem _ hc)
      have hne : hd.1 ≠ k := fun hc => hk (hc ▸ List.mem_cons_self _ _)
      rw [List.filterMap_cons]
      cases hr : resolveUpdate inv hd with
      | none => exact ih hk'
      | some rec =>
          have hepc : rec.epc = hd.1 := resolveUpdate_epc inv hd rec hr
          rw [List.filter_cons_of_neg (by simp [hepc, hne])]
          exact ih hk'

theorem filter_key_single (inv : List (String × InvEntry)) :
    ∀ l : List (String × Entry), (l.map Prod.fst).Nodup →
      ∀ p ∈ l, ∀ item, jsMapGet inv p.1 = some item →
        (l.filterMap (resolveUpdate inv)).filter (fun rec => rec.epc == p.1) =
          [{ id := item.id, timestamp := p.2.timestamp, epc := p.1,
             item := item.item, count := p.2.count }] := by
  intro l
  induction l with
  | nil => intro _ p hp; cases hp
  | cons hd tl ih =>
      intro hnd p hp item hitem
      have hhd : hd.1 ∉ tl.map Prod.fst := (List.nodup_cons.mp hnd).1
      have hnd' : (tl.map Prod.fst).Nodup := (List.nodup_cons.mp hnd).2
      rcases List.mem_cons.mp hp with hp1 | hp2
      · subst hp1
        rw [List.filterMap_cons]
        have hr : resolveUpdate inv p = some
            { id := item.id, timestamp := p.2.timestamp, epc := p.1,
              item := item.item, count := p.2.count } := by
          unfold resolveUpdate
          rw [hitem]
        rw [hr, List.filter_cons_of_pos (by simp)]
        rw [filter_key_nil inv p.1 tl hhd]
      · have hne : hd.1 ≠ p.1 := by
          intro hc
          exact hhd (hc ▸ List.mem_map_of_mem Prod.fst hp2)
        rw [List.filterMap_cons]
        cases hr : resolveUpdate inv hd with
        | none => exact ih hnd' p hp2 item hitem
        | some rec =>
            have hepc : rec.epc = hd.1 := resolveUpdate_epc inv hd rec hr
            rw [List.filter_cons_of_neg (by simp [hepc, hne])]
            exact ih hnd' p hp2 item hitem

/-- C7 counterexample: in unfiltered (auto) mode, a window identifier
absent from the inventory is NOT included as an "unknown" record — the
flush emits nothing at all to the open subscriber, while still clearing
the window table. -/
theorem C7_flush_counterexample :
    c7State.inventoryModeFlag = false ∧
    c7State.scannedTagsRefresh = [("E100", { count := 1, timestamp := "t0" })] ∧
    jsMapGet c7State.inventoryData "E100" = none ∧
    c7State.wsClients = [true] ∧
    logScannedTags c7State = ({ c7State with scannedTagsRefresh := [] }, []) := by
  refine ⟨rfl, rfl, rfl, rfl, ?_⟩
  decide

/-- C7 amended: a flush clears the window table, leaves the cumulative
table (and the inventory) unchanged, and — in every mode — emits, for
each window identifier that resolves in the InventoryIndex, exactly one
update record (with that entry's id, display name, timestamp and count)
in the single batch that every open subscriber receives; identifiers
absent from the inventory are skipped in every mode (never rendered as
"unknown") and raise no error, so an identifier observed in
InventoryFiltered mode that is not in the inventory never appears in
any flush. -/
theorem C7_flush_amended (s : SysState)
    (hnd : (s.scannedTagsRefresh.map Prod.fst).Nodup) :
    (logScannedTags s).1.scannedTagsRefresh = [] ∧
    (logScannedTags s).1.scannedTagsCumulative = s.scannedTagsCumulative ∧
    (logScannedTags s).1.inventoryData = s.inventoryData ∧
    ∃ U : List UpdateRec,
      (logScannedTags s).2 =
        (if U.length > 0 then broadcast s.wsClients (WsMsg.updates U) else []) ∧
      (∀ p ∈ s.scannedTagsRefresh,
        (jsMapGet s.inventoryData p.1 = none → ∀ rec ∈ U, rec.epc ≠ p.1) ∧
        (∀ item, jsMapGet s.inventoryData p.1 = some item →
          U.filter (fun rec => rec.epc == p.1) =
            [{ id := item.id, timestamp := p.2.timestamp, epc := p.1,
               item := item.item, count := p.2.count }])) ∧
      (∀ rec ∈ U, ∃ p ∈ s.scannedTagsRefresh, resolveUpdate s.inventoryData p = some rec) := by
  refine ⟨?_, ?_, ?_, ?_⟩
  · simp only [logScannedTags]
    split <;> rfl
  · simp only [logScannedTags]
    split <;> rfl
  · simp only [logScannedTags]
    split <;> rfl
  · refine ⟨s.scannedTagsRefresh.filterMap (resolveUpdate s.inventoryData),
      ?_, ?_, ?_⟩
    · simp only [logScannedTags]
      split <;> rfl
    · intro p hp
      constructor
      · intro hnone rec hrec hepc
        rcases List.mem_filterMap.mp hrec with ⟨q, hq, hfq⟩
        have hkey : q.1 = p.1 := (resolveUpdate_epc _ _ _ hfq) ▸ hepc
        have hqp : q = p := key_inj _ hnd q hq p hp hkey
        rw [hqp] at hfq
        unfold resolveUpdate at hfq
        rw [hnone] at hfq
        cases hfq
      · intro item hitem
        exact filter_key_single s.inventoryData s.scannedTagsRefresh hnd p hp
          item hitem
    · intro rec hrec
      rcases List.mem_filterMap.mp hrec with ⟨q, hq, hfq⟩
      exact ⟨q, hq, hfq⟩

/-- Witness for C7 amended at `c7WitnessState`. -/
theorem C7_flush_amended_witness :
    (logScannedTags c7WitnessState).1.scannedTagsRefresh = [] ∧
    (logScannedTags c7WitnessState).1.scannedTagsCumulative =
      c7WitnessState.scannedTagsCumulative ∧
    (logScannedTags c7WitnessState).1.inventoryData =
      c7WitnessState.inventoryData ∧
    ∃ U : List UpdateRec,
      (logScannedTags c7WitnessState).2 =
        (if U.length > 0 then
          broadcast c7WitnessState.wsClients (WsMsg.updates U) else []) ∧
      (∀ p ∈ c7WitnessState.scannedTagsRefresh,
        (jsMapGet c7WitnessState.inventoryData p.1 = none →
          ∀ rec ∈ U, rec.epc ≠ p.1) ∧
        (∀ item, jsMapGet c7WitnessState.inventoryData p.1 = some item →
          U.filter (fun rec => rec.epc == p.1) =
            [{ id := item.id, timestamp := p.2.timestamp, epc := p.1,
               item := item.item, count := p.2.count }])) ∧
      (∀ rec ∈ U, ∃ p ∈ c7WitnessState.scannedTagsRefresh,
        resolveUpdate c7WitnessState.inventoryData p = some rec) :=
  C7_flush_amended c7WitnessState (by decide)

/-! ### Claim C8 -/

/-- C8 counterexample: reloading inventory from an input whose header
row lacks the `EPC` column is rejected (no rows are parsed), but the
previously active InventoryIndex does NOT remain unchanged —
`parseInventoryData` begins with `inventoryData.clear()`, so the index
is empty afterwards. -/
theorem C8_reload_counterexample :
    jsIndexOf (inventoryHeaders "id,item\n1,x") "EPC" = none ∧
    (uploadInventory "id,item\n1,x" c8State).inventoryData = [] ∧
    (uploadInventory "id,item\n1,x" c8State).inventoryData ≠
      c8State.inventoryData := by
  refine ⟨by decide, by decide, by decide⟩

/-- C8 amended: when the header row lacks the `EPC` column the reload is
rejected in the sense that no rows are parsed, but the map is cleared
first, so the resulting InventoryIndex is empty whatever was active
before — the reload is not atomic. -/
theorem C8_reload_amended (csvData : String) (s : SysState)
    (h : jsIndexOf (inventoryHeaders csvData) "EPC" = none) :
    (uploadInventory csvData s).inventoryData = [] := by
  simp only [uploadInventory, parseInventoryData]
  unfold inventoryHeaders at h
  rw [h]
  split <;> rfl

/-- Witness for C8 amended at the concrete malformed input. -/
theorem C8_reload_amended_witness :
    (uploadInventory "id,item\n1,x" c8State).inventoryData = [] :=
  C8_reload_amended "id,item\n1,x" c8State (by decide)

/-! ### Claim C9 -/

/-- C9 counterexample: for the accepted tag-read frame `shortTagFrame`
(payload length 3 < 5 + 2) the decoder produces the empty identifier,
but in unfiltered mode the empty identifier IS counted: both counter
tables acquire an entry keyed by the empty string. -/
theorem C9_short_payload_counterexample :
    ((shortTagFrame.drop 5).take (shortTagFrame.getD 1 0)).length < 7 ∧
    bytesHexU ((((shortTagFrame.drop 5).take (shortTagFrame.getD 1 0)).drop 5).take
      (((shortTagFrame.drop 5).take (shortTagFrame.getD 1 0)).length - 2 - 5)) = "" ∧
    (parseResponse shortTagFrame "t0" c9AutoState).1.scannedTagsRefresh =
      [("", { count := 1, timestamp := "t0" })] ∧
    (parseResponse shortTagFrame "t0" c9AutoState).1.scannedTagsCumulative =
      [("", { count := 1, timestamp := "t0" })] := by
  decide

/-- The row loop never inserts an entry for the empty identifier
(`if (epc)` is falsy on the empty string). -/
theorem parseInventoryRows_no_empty_key (idIndex : Option Nat) (eIdx : Nat)
    (itemIndex : Option Nat) :
    ∀ (rows : List String) (i : Nat) (acc : List (String × InvEntry)),
      jsMapGet acc "" = none →
      jsMapGet (parseInventoryRows idIndex eIdx itemIndex rows i acc) "" = none := by
  intro rows
  induction rows with
  | nil => intro i acc h; exact h
  | cons line rest ih =>
      intro i acc h
      simp only [parseInventoryRows]
      by_cases hepc : jsTrim ((jsSplit ',' line).getD eIdx "") ≠ ""
      · rw [if_pos hepc]
        exact ih _ _ (by
          rw [jsMapGet_set_ne _ _ _ _ (fun hc => hepc hc.symm)]
          exact h)
      · rw [if_neg hepc]
        exact ih _ _ h

/-- A loaded inventory never maps the empty identifier. -/
theorem parseInventoryData_no_empty_key (csvData : String) :
    jsMapGet (parseInventoryData csvData) "" = none := by
  simp only [parseInventoryData]
  split
  · rfl
  · split
    · rfl
    · exact parseInventoryRows_no_empty_key _ _ _ _ _ _ rfl

/-- C9 amended: a payload shorter than the fixed 5-byte prefix plus
2-byte suffix always decodes to the empty identifier (the decoder is
total — no crash); an inventory produced by `parseInventoryData` never
contains the empty identifier, so in InventoryFiltered mode such an
observation is discarded — not counted, not forwarded, no error.  In
unfiltered and read-tag modes, however, the empty identifier is counted
like any other tag (see the counterexample). -/
theorem C9_short_payload_amended :
    (∀ payload : List Nat, payload.length < 7 →
      bytesHexU ((payload.drop 5).take (payload.length - 2 - 5)) = "") ∧
    (∀ csvData : String, jsMapGet (parseInventoryData csvData) "" = none) ∧
    parseResponse shortTagFrame "t0" c9FilteredState =
      (c9FilteredState, [], []) := by
  refine ⟨?_, parseInventoryData_no_empty_key, by decide⟩
  intro payload hlen
  have h0 : payload.length - 2 - 5 = 0 := by omega
  rw [h0]
  rfl

/-- Witness for C9 amended at the concrete 3-byte payload. -/
theorem C9_short_payload_amended_witness :
    bytesHexU ((([1, 2, 3] : List Nat).drop 5).take
      (([1, 2, 3] : List Nat).length - 2 - 5)) = "" :=
  C9_short_payload_amended.1 [1, 2, 3] (by decide)

/-! ### Claim C10 -/

theorem getD_take_of_lt {α : Type} (l : List α) (d : α) {n m : Nat} (h : m < n) :
    (l.take n).getD m d = l.getD m d := by
  simp [List.getD_eq_getElem?_getD, List.getElem?_take_of_lt h]

/-- C10: `parseResponse` never validates the CRC of an incoming frame.
For two well-formed frames of equal length that agree everywhere except
their trailing two CRC bytes, all state updates, serial writes and
subscriber messages are identical — provided the byte-for-byte
comparison against the app-start acknowledgment frame does not
distinguish them (the one place where the trailing bytes are read). -/
theorem C10_crc_bytes_ignored (f1 f2 : List Nat) (now : String) (s : SysState)
    (hlen7 : 7 ≤ f1.length)
    (hwf : f1.getD 1 0 = f1.length - 7)
    (hlen : f2.length = f1.length)
    (hpre : f1.take (f1.length - 2) = f2.take (f2.length - 2))
    (hmag : f1 = startAppAckFrame ↔ f2 = startAppAckFrame) :
    parseResponse f1 now s = parseResponse f2 now s := by
  have hgd : ∀ m, m < f1.length - 2 → f2.getD m 0 = f1.getD m 0 := by
    intro m hm
    have h1 : (f1.take (f1.length - 2)).getD m 0 = f1.getD m 0 :=
      getD_take_of_lt f1 0 hm
    have h2 : (f2.take (f2.length - 2)).getD m 0 = f2.getD m 0 :=
      getD_take_of_lt f2 0 (by omega)
    rw [← h1, ← h2, hpre]
  have hg0 : f2.getD 0 0 = f1.getD 0 0 := hgd 0 (by omega)
  have hg1 : f2.getD 1 0 = f1.getD 1 0 := hgd 1 (by omega)
  have hg2 : f2.getD 2 0 = f1.getD 2 0 := hgd 2 (by omega)
  have hg3 : f2.getD 3 0 = f1.getD 3 0 := hgd 3 (by omega)
  have hg4 : f2.getD 4 0 = f1.getD 4 0 := hgd 4 (by omega)
  have hpay : (f2.drop 5).take (f1.getD 1 0) = (f1.drop 5).take (f1.getD 1 0) := by
    rw [hwf]
    have harith1 : 5 + (f1.length - 7) = f1.length - 2 := by omega
    have harith2 : 5 + (f1.length - 7) = f2.length - 2 := by omega
    have e1 : (f1.drop 5).take (f1.length - 7) = (f1.take (f1.length - 2)).drop 5 := by
      rw [List.take_drop, harith1]
    have e2 : (f2.drop 5).take (f1.length - 7) = (f2.take (f2.length - 2)).drop 5 := by
      rw [List.take_drop, harith2]
    rw [e1, e2, hpre]
  have hmg : (f2 = startAppAckFrame) = (f1 = startAppAckFrame) :=
    propext (Iff.symm hmag)
  simp only [parseResponse]
  simp only [hg0, hg1, hg2, hg3, hg4, hmg, hpay]

/-- Witness for C10: `tagFrameA` and `tagFrameA'` differ only in their
trailing two bytes and are processed identically. -/
theorem C10_crc_bytes_ignored_witness :
    parseResponse tagFrameA "t0" readTagSessionState =
      parseResponse tagFrameA' "t0" readTagSessionState :=
  C10_crc_bytes_ignored tagFrameA tagFrameA' "t0" readTagSessionState
    (by decide) (by decide) (by decide) (by decide)
    (by constructor <;> (intro h; cases h))

end SmartToolbox
